import Mathlib

/-!
A shallow embedding of the turn-based combat simulator (src/main.py) and
machine-checked statements about its behaviour.  Python floats are modelled
as rationals; the global random source is modelled by passing the outcome of
each random draw (crit roll, shuffle, choice index) as an explicit argument.
-/

set_option maxHeartbeats 1000000

namespace MiniGame

/-- A value assigned to a bounded stat: a number, a string, or something
with no numeric conversion (models the argument of `BoundedStat.__set__`). -/
inductive PyValue where
  | num (v : ℚ)
  | str (s : String)
  | other
deriving DecidableEq

/-- Numeric value of a run of decimal digits; `none` on a non-digit. -/
def digitsVal (cs : List Char) : Option ℕ :=
  cs.foldl
    (fun acc c =>
      match acc with
      | none => none
      | some n => if c.isDigit then some (n * 10 + (c.toNat - 48)) else none)
    (some 0)

/-- Conversion of an unsigned decimal string (digits, optionally with a dot
and fractional digits) to a rational; `none` when the string is not numeric. -/
def parseUnsigned (cs : List Char) : Option ℚ :=
  let sp := cs.span Char.isDigit
  match sp.2 with
  | [] =>
    if sp.1.isEmpty then none
    else (digitsVal sp.1).map (fun n => (n : ℚ))
  | c :: frac =>
    if c = '.' ∧ frac.all Char.isDigit ∧ ¬(sp.1.isEmpty ∧ frac.isEmpty) then
      match digitsVal sp.1, digitsVal frac with
      | some ip, some fp => some ((ip : ℚ) + (fp : ℚ) / ((10 : ℚ) ^ frac.length))
      | _, _ => none
    else none

/-- Model of Python `float(s)` on strings: an optional sign then an
unsigned decimal number (surrounding whitespace, exponents and the special
words are not modelled). -/
def pyFloatOfString (s : String) : Option ℚ :=
  match s.toList with
  | '+' :: rest => parseUnsigned rest
  | '-' :: rest => (parseUnsigned rest).map Neg.neg
  | cs => parseUnsigned cs

/-- Model of Python `float(value)` as used by `BoundedStat.__set__`:
`some` the converted number, `none` when the conversion raises. -/
def pyFloat : PyValue → Option ℚ
  | .num v => some v
  | .str s => pyFloatOfString s
  | .other => none

/-- The `BoundedStat` descriptor: a lower bound and an optional upper bound
(src/main.py lines 12-17). -/
structure BoundedStat where
  lo : ℚ
  hi : Option ℚ
deriving DecidableEq

/-- `BoundedStat.__set__` (src/main.py lines 24-33): convert with `float`,
raising (`error`) on failure, otherwise clamp into `[lo, hi]`
(or `[lo, ∞)` when no upper bound is set). -/
def BoundedStat.assign (b : BoundedStat) (value : PyValue) : Except Unit ℚ :=
  match pyFloat value with
  | none => .error ()
  | some v =>
    match b.hi with
    | some m => .ok (max b.lo (min m v))
    | none => .ok (max b.lo v)

/-- The value stored in the descriptor slot after an assignment: the raise in
`__set__` happens before `setattr`, so a failed assignment keeps `prev`. -/
def BoundedStat.storedAfter (b : BoundedStat) (prev : ℚ) (value : PyValue) : ℚ :=
  match b.assign value with
  | .error _ => prev
  | .ok v => v

/-- The descriptor used for `hp`, `mp`, `strength`, `agility`, `intelligence`
on `Human` (src/main.py lines 60-64): `min_value=0`, no `max_value`. -/
def humanStat : BoundedStat := ⟨0, none⟩

/-- The effect hierarchy (src/main.py lines 103-153): Shield, DamageOverTime,
Silence (marker) and Regen, each carrying its remaining duration. -/
inductive Effect where
  | shield (amount : ℚ) (duration : Int)
  | dot (damage : ℚ) (duration : Int)
  | silence (duration : Int)
  | regen (amount : ℚ) (duration : Int)
deriving DecidableEq

def Effect.duration : Effect → Int
  | .shield _ d => d
  | .dot _ d => d
  | .silence d => d
  | .regen _ d => d

def Effect.isSilence : Effect → Bool
  | .silence _ => true
  | _ => false

/-- A character: `Human` stats plus the `Character` combat state
(src/main.py lines 59-99 and 210-216).  Stats are stored post-descriptor,
so each numeric field holds what the corresponding `BoundedStat` slot holds. -/
structure Character where
  name : String
  level : Nat
  maxHp : ℚ
  maxMp : ℚ
  hp : ℚ
  mp : ℚ
  strength : ℚ
  agility : ℚ
  intelligence : ℚ
  shield : ℚ
  effects : List Effect
  cooldowns : List (String × Int)
  critChance : ℚ
  critMultiplier : ℚ
deriving DecidableEq

/-- `Human.__init__` followed by `Character.__init__`: every stat is written
through a `humanStat` descriptor (clamping below at 0), shield starts at 0,
no effects, empty cooldown map, `CritMixin` defaults. -/
def mkCharacter (name : String) (level : Nat)
    (maxHp maxMp strength agility intelligence : ℚ) : Character :=
  { name := name
    level := level
    maxHp := maxHp
    maxMp := maxMp
    hp := max 0 maxHp
    mp := max 0 maxMp
    strength := max 0 strength
    agility := max 0 agility
    intelligence := max 0 intelligence
    shield := 0
    effects := []
    cooldowns := []
    critChance := 0
    critMultiplier := 3 / 2 }

/-- `Character.is_alive` (src/main.py lines 218-220). -/
def Character.isAlive (c : Character) : Bool := decide (0 < c.hp)

/-- `SilenceMixin.is_silenced` (src/main.py lines 53-55). -/
def Character.isSilenced (c : Character) : Bool := c.effects.any Effect.isSilence

/-- `Character.take_damage` (src/main.py lines 242-252): shield absorbs
`min(shield, amount)` when positive; if the remainder is `≤ 0` nothing more
happens; otherwise hp is set to `max 0 (hp - remainder)`. -/
def Character.takeDamage (c : Character) (amount : ℚ) : Character :=
  let p : ℚ × ℚ :=
    if 0 < c.shield then
      let absorbed := min c.shield amount
      (c.shield - absorbed, amount - absorbed)
    else (c.shield, amount)
  if p.2 ≤ 0 then { c with shield := p.1 }
  else { c with shield := p.1, hp := max 0 (c.hp - p.2) }

/-- `Character.heal` (src/main.py lines 254-257): hp becomes
`min(max_hp, hp + amount)`, written through the descriptor (lower clamp 0). -/
def Character.heal (c : Character) (amount : ℚ) : Character :=
  { c with hp := max 0 (min c.maxHp (c.hp + amount)) }

/-- `Character.restore_mp` (src/main.py lines 259-262). -/
def Character.restoreMp (c : Character) (amount : ℚ) : Character :=
  { c with mp := max 0 (min c.maxMp (c.mp + amount)) }

/-- `Character.spend_mp` (src/main.py lines 264-268): deduct only when
`mp >= amount`, returning whether the spend happened. -/
def Character.spendMp (c : Character) (amount : ℚ) : Character × Bool :=
  if amount ≤ c.mp then ({ c with mp := max 0 (c.mp - amount) }, true)
  else (c, false)

/-- `Effect.apply` at attach time (src/main.py lines 108-109 and 123-124):
only `ShieldEffect` has a payload, adding its amount to the shield buffer. -/
def Effect.applyTo (e : Effect) (c : Character) : Character :=
  match e with
  | .shield a _ => { c with shield := c.shield + a }
  | _ => c

/-- `Character.apply_effect` (src/main.py lines 222-225): run `apply`
then append the effect to the active list. -/
def Character.applyEffect (c : Character) (e : Effect) : Character :=
  let c1 := e.applyTo c
  { c1 with effects := c1.effects ++ [e] }

/-- `Effect.on_turn` (src/main.py lines 111-153): DOT damages a living
target, Regen heals a living target, every effect decrements its duration. -/
def Effect.onTurn (c : Character) : Effect → Character × Effect
  | .shield a d => (c, .shield a (d - 1))
  | .dot dmg d => ((if c.isAlive then c.takeDamage dmg else c), .dot dmg (d - 1))
  | .silence d => (c, .silence (d - 1))
  | .regen a d => ((if c.isAlive then c.heal a else c), .regen a (d - 1))

/-- `Effect.expire` (src/main.py lines 114-115 and 126-127): only
`ShieldEffect` has an expiry payload, removing its contribution (floored 0). -/
def Effect.expireOn (e : Effect) (c : Character) : Character :=
  match e with
  | .shield a _ => { c with shield := max 0 (c.shield - a) }
  | _ => c

/-- `Character.remove_expired_effects` (src/main.py lines 227-235): effects
with duration `≤ 0` fire `expire` and are dropped; the rest stay in order. -/
def Character.removeExpiredEffects (c : Character) : Character :=
  let r := c.effects.foldl
    (fun (acc : Character × List Effect) e =>
      if e.duration ≤ 0 then (e.expireOn acc.1, acc.2)
      else (acc.1, acc.2 ++ [e]))
    (c, [])
  { r.1 with effects := r.2 }

/-- `Character.start_turn_effects` (src/main.py lines 237-240): run
`on_turn` for each active effect in attach order, then remove expired ones. -/
def Character.startTurnEffects (c : Character) : Character :=
  let r := c.effects.foldl
    (fun (acc : Character × List Effect) e =>
      let s := Effect.onTurn acc.1 e
      (s.1, acc.2 ++ [s.2]))
    (c, [])
  Character.removeExpiredEffects { r.1 with effects := r.2 }

/-- `cooldowns.get(key, 0)`. -/
def getCooldown (cds : List (String × Int)) (k : String) : Int :=
  match cds.lookup k with
  | some v => v
  | none => 0

/-- `cooldowns[key] = v`. -/
def setCooldown (cds : List (String × Int)) (k : String) (v : Int) :
    List (String × Int) :=
  match cds with
  | [] => [(k, v)]
  | (k', v') :: rest =>
    if k' = k then (k, v) :: rest else (k', v') :: setCooldown rest k v

/-- `Warrior.__init__` (src/main.py lines 286-290). -/
def mkWarrior (name : String) : Character :=
  { mkCharacter name 1 150 30 20 12 6 with
    critChance := 12 / 100
    cooldowns := [("power_strike", 0)] }

/-- `Mage.__init__` (src/main.py lines 321-325). -/
def mkMage (name : String) : Character :=
  { mkCharacter name 1 90 140 6 10 22 with
    critChance := 6 / 100
    cooldowns := [("fireball", 0)] }

/-- `Healer.__init__` (src/main.py lines 355-359). -/
def mkHealer (name : String) : Character :=
  { mkCharacter name 1 110 130 6 10 20 with
    critChance := 3 / 100
    cooldowns := [("mass_heal", 0)] }

/-- `Boss.__init__` (src/main.py lines 417-425); crit chance stays at the
`CritMixin` default. -/
def mkBoss (name : String) : Character :=
  mkCharacter name 5 600 80 26 8 14

/-- Result of a single-target signature skill: updated caster, updated
target, and the boolean the Python method returns. -/
structure StrikeOut where
  caster : Character
  target : Character
  ok : Bool
deriving DecidableEq

/-- `Warrior.power_strike` (src/main.py lines 292-310); `crit` is the
outcome of the `roll_crit` random draw. -/
def powerStrike (self target : Character) (crit : Bool) : StrikeOut :=
  if self.isSilenced then ⟨self, target, false⟩
  else if 0 < getCooldown self.cooldowns "power_strike" then ⟨self, target, false⟩
  else
    let r := self.spendMp 8
    if r.2 = false then ⟨r.1, target, false⟩
    else
      let c2 := { r.1 with cooldowns := setCooldown r.1.cooldowns "power_strike" 2 }
      let dmg0 := c2.strength * 2
      let dmg := if crit then dmg0 * c2.critMultiplier else dmg0
      ⟨c2, target.takeDamage dmg, true⟩

/-- `Mage.fireball` (src/main.py lines 327-344): direct damage
`intelligence * 3.0` plus a DOT of a quarter of that over 2 rounds. -/
def fireball (self target : Character) : StrikeOut :=
  if self.isSilenced then ⟨self, target, false⟩
  else if 0 < getCooldown self.cooldowns "fireball" then ⟨self, target, false⟩
  else
    let r := self.spendMp 20
    if r.2 = false then ⟨r.1, target, false⟩
    else
      let c2 := { r.1 with cooldowns := setCooldown r.1.cooldowns "fireball" 3 }
      let dmg := c2.intelligence * 3
      ⟨c2, (target.takeDamage dmg).applyEffect (.dot (dmg * (25 / 100)) 2), true⟩

/-- Result of `Healer.mass_heal`: updated caster, updated allies list, and
the boolean the method returns. -/
structure HealOut where
  caster : Character
  allies : List Character
  ok : Bool
deriving DecidableEq

/-- `Healer.mass_heal` (src/main.py lines 361-378): heal each living ally by
`intelligence * 2.0`. -/
def massHeal (self : Character) (allies : List Character) : HealOut :=
  if self.isSilenced then ⟨self, allies, false⟩
  else if 0 < getCooldown self.cooldowns "mass_heal" then ⟨self, allies, false⟩
  else
    let r := self.spendMp 25
    if r.2 = false then ⟨r.1, allies, false⟩
    else
      let c2 := { r.1 with cooldowns := setCooldown r.1.cooldowns "mass_heal" 3 }
      let amount := c2.intelligence * 2
      ⟨c2, allies.map (fun a => if a.isAlive then a.heal amount else a), true⟩

/-- The phase decision as a function of the hp ratio, thresholds
`[0.66, 0.33]` (src/main.py lines 420 and 430-435). -/
def phaseOfRatio (r : ℚ) : Nat :=
  if 66 / 100 < r then 1 else if 33 / 100 < r then 2 else 3

/-- `Boss.phase` (src/main.py lines 427-435): recomputed from the current
hp ratio on every query. -/
def bossPhase (b : Character) : Nat :=
  phaseOfRatio (if 0 < b.maxHp then b.hp / b.maxHp else 0)

/-- The comparison `TurnOrder.prepare_round` sorts by:
`key=lambda x: x.agility, reverse=True`. -/
def agilityGe (a b : Character) : Bool := decide (b.agility ≤ a.agility)

/-- `TurnOrder.prepare_round` (src/main.py lines 480-484) after the shuffle:
a stable sort of the shuffled living list, descending by agility. -/
def prepareRound (shuffledLiving : List Character) : List Character :=
  shuffledLiving.mergeSort agilityGe

/-- One full drain of `TurnOrder.__next__` (src/main.py lines 489-494):
combatants found dead when popped are skipped. -/
def turnOrderYield (order : List Character) : List Character :=
  order.filter Character.isAlive

/-- The mutable battle state `Battle.run` operates on: the party list and
the boss (src/main.py lines 520-527). -/
structure BattleState where
  party : List Character
  boss : Character
deriving DecidableEq

/-- `any(h.is_alive for h in ...)`. -/
def anyAlive (l : List Character) : Bool := l.any Character.isAlive

/-- Indices of the living members of `party`, in order: the candidate pool
for `random.choice([h for h in self.party if h.is_alive])`. -/
def aliveIndices (party : List Character) : List Nat :=
  (List.range party.length).filter
    (fun j =>
      match party.get? j with
      | some c => c.isAlive
      | none => false)

/-- Index of the first living party member of minimal hp:
`min(living, key=lambda x: x.hp)` in `AggressiveStrategy.choose_action`
(src/main.py lines 396-402); Python's `min` keeps the earliest minimum. -/
def argminHpIdx (party : List Character) : Option Nat :=
  (List.range party.length).foldl
    (fun best j =>
      match party.get? j with
      | none => best
      | some c =>
        if c.isAlive then
          match best with
          | none => some j
          | some b =>
            match party.get? b with
            | none => some j
            | some cb => if c.hp < cb.hp then some j else best
        else best)
    none

/-- Index of the first living party member of maximal strength:
`max(living, key=lambda x: x.strength)` in `DefensiveStrategy.choose_action`
(src/main.py lines 405-413); Python's `max` keeps the earliest maximum. -/
def argmaxStrengthIdx (party : List Character) : Option Nat :=
  (List.range party.length).foldl
    (fun best j =>
      match party.get? j with
      | none => best
      | some c =>
        if c.isAlive then
          match best with
          | none => some j
          | some b =>
            match party.get? b with
            | none => some j
            | some cb => if cb.strength < c.strength then some j else best
        else best)
    none

/-- The primary action a `BossStrategy.choose_action` call produces. -/
inductive BossAction where
  | smashAt (j : Nat)
  | shieldSelf
  | wait
deriving DecidableEq

/-- `Boss.choose_strategy` plus the chosen strategy's `choose_action`
(src/main.py lines 396-413 and 437-438): phases 1 and 3 are aggressive,
phase 2 is defensive (self-shield while shield is under 15% of max hp). -/
def chooseBossAction (boss : Character) (party : List Character) : BossAction :=
  if bossPhase boss = 2 then
    if boss.shield < boss.maxHp * (15 / 100) then .shieldSelf
    else
      match argmaxStrengthIdx party with
      | some j => .smashAt j
      | none => .wait
  else
    match argminHpIdx party with
    | some j => .smashAt j
    | none => .wait

/-- `Boss.smash` (src/main.py lines 440-443): `strength * 2.2` damage. -/
def smash (boss target : Character) : Character :=
  target.takeDamage (boss.strength * (22 / 10))

/-- `Boss.shield_self` (src/main.py lines 445-448): a `ShieldEffect` of
`intelligence * 3.5` for 2 rounds. -/
def bossShieldSelf (boss : Character) : Character :=
  boss.applyEffect (.shield (boss.intelligence * (7 / 2)) 2)

/-- `Boss.cast_silence` (src/main.py lines 450-452): always duration 1. -/
def castSilence (target : Character) : Character :=
  target.applyEffect (.silence 1)

/-- `Boss.use_skill` (src/main.py lines 454-470): resolve the strategy's
primary action, then in phase 3 a coin flip (`silenceRoll`) may silence a
random living enemy (`sPick` is the random index draw). -/
def bossUseSkill (boss : Character) (party : List Character)
    (silenceRoll : Bool) (sPick : Nat) : Character × List Character :=
  let step1 : Character × List Character :=
    match chooseBossAction boss party with
    | .smashAt j =>
      match party.get? j with
      | some t => (boss, party.set j (smash boss t))
      | none => (boss, party)
    | .shieldSelf => (bossShieldSelf boss, party)
    | .wait => (boss, party)
  let b1 := step1.1
  let p1 := step1.2
  if bossPhase b1 = 3 ∧ party ≠ [] then
    if silenceRoll then
      let idxs := aliveIndices p1
      match idxs.get? (sPick % idxs.length) with
      | some j =>
        match p1.get? j with
        | some t => (b1, p1.set j (castSilence t))
        | none => (b1, p1)
      | none => (b1, p1)
    else (b1, p1)
  else (b1, p1)

/-- The retaliation block of `Battle.run` (src/main.py lines 621-624):
the boss smashes a uniformly chosen living hero (`pick` is the draw). -/
def retaliate (st : BattleState) (pick : Nat) : BattleState :=
  let idxs := aliveIndices st.party
  match idxs.get? (pick % idxs.length) with
  | some j =>
    match st.party.get? j with
    | some h => ⟨st.party.set j (smash st.boss h), st.boss⟩
    | none => st
  | none => st

/-- The battle state right after hero `i` has run its start-of-turn effect
processing (src/main.py line 601). -/
def afterEffectsState (st : BattleState) (i : Nat) : BattleState :=
  match st.party.get? i with
  | some hero => ⟨st.party.set i hero.startTurnEffects, st.boss⟩
  | none => st

/-- The body of `Battle.run` for a hero actor (src/main.py lines 598-626):
skip if dead, run start-of-turn effects, skip if now dead, run the menu
action (`act`, the external decision collaborator), then retaliate iff the
boss's hp strictly decreased, the boss is alive and a hero is alive.
The boolean records whether the retaliation strike happened. -/
def heroTurn (st : BattleState) (i : Nat) (act : BattleState → BattleState)
    (pick : Nat) : BattleState × Bool :=
  match st.party.get? i with
  | none => (st, false)
  | some hero =>
    if hero.isAlive = false then (st, false)
    else
      let hero1 := hero.startTurnEffects
      let st1 : BattleState := ⟨st.party.set i hero1, st.boss⟩
      if hero1.isAlive = false then (st1, false)
      else
        let before := st1.boss.hp
        let st2 := act st1
        if decide (st2.boss.hp < before) && st2.boss.isAlive && anyAlive st2.party then
          (retaliate st2 pick, true)
        else (st2, false)

/-- The body of `Battle.run` for the boss actor (src/main.py lines 598-609):
skip if dead, run start-of-turn effects (this is where DOT damage to the
boss lands), skip if now dead, otherwise resolve `Boss.use_skill`.  The
boolean records whether a retaliation strike happened in this branch. -/
def bossTurn (st : BattleState) (silenceRoll : Bool) (sPick : Nat) :
    BattleState × Bool :=
  if st.boss.isAlive = false then (st, false)
  else
    let boss1 := st.boss.startTurnEffects
    if boss1.isAlive = false then (⟨st.party, boss1⟩, false)
    else
      let r := bossUseSkill boss1 st.party silenceRoll sPick
      (⟨r.2, r.1⟩, false)

/-- The effect-side outcome of one `Effect.on_turn` call: whatever the
payload does to the character, the effect itself just loses one duration. -/
def Effect.decrement : Effect → Effect
  | .shield a d => .shield a (d - 1)
  | .dot x d => .dot x (d - 1)
  | .silence d => .silence (d - 1)
  | .regen a d => .regen a (d - 1)

/-- A direct `hero.hp = value` assignment: written through the `hp`
descriptor (`humanStat`, src/main.py line 60); a raising assignment leaves
the slot unchanged. -/
def Character.assignHp (c : Character) (value : PyValue) : Character :=
  { c with hp := humanStat.storedAfter c.hp value }

/-- A direct `hero.mp = value` assignment through the `mp` descriptor
(src/main.py line 61). -/
def Character.assignMp (c : Character) (value : PyValue) : Character :=
  { c with mp := humanStat.storedAfter c.mp value }

/-! ## Theorems -/

/-- Claim C2: for every character with shield `S ≥ 0`, hp `≥ 0` (the hp
descriptor keeps hp nonnegative) and incoming damage `A ≥ 0`, `take_damage`
absorbs `min S A` into the shield, leaving the shield at `S - min S A`, and
reduces hp by `max 0 (A - S)`, floored at 0. -/
theorem take_damage_shield_formula (c : Character) (A : ℚ)
    (hA : 0 ≤ A) (hS : 0 ≤ c.shield) (hH : 0 ≤ c.hp) :
    (c.takeDamage A).shield = c.shield - min c.shield A ∧
    (c.takeDamage A).hp = max 0 (c.hp - max 0 (A - c.shield)) := by
  simp only [Character.takeDamage]
  by_cases h1 : 0 < c.shield
  · simp only [if_pos h1]
    rcases le_or_lt A c.shield with h2 | h2
    · have hm : min c.shield A = A := min_eq_right h2
      have hz : A - min c.shield A ≤ 0 := by rw [hm]; simp
      simp only [if_pos hz]
      refine ⟨by trivial, ?_⟩
      have h3 : max 0 (A - c.shield) = 0 := max_eq_left (by linarith)
      rw [h3, sub_zero, max_eq_right hH]
    · have hm : min c.shield A = c.shield := min_eq_left h2.le
      have hz : ¬ A - min c.shield A ≤ 0 := by rw [hm]; linarith
      simp only [if_neg hz]
      refine ⟨by trivial, ?_⟩
      rw [hm]
      have h3 : max 0 (A - c.shield) = A - c.shield := max_eq_right (by linarith)
      rw [h3]
  · have hs0 : c.shield = 0 := le_antisymm (not_lt.mp h1) hS
    simp only [if_neg h1]
    rcases eq_or_lt_of_le hA with h2 | h2
    · simp only [if_pos (le_of_eq h2.symm)]
      constructor
      · rw [hs0, ← h2, min_self, sub_zero]
      · rw [hs0, ← h2, sub_zero, max_self, sub_zero, max_eq_right hH]
    · simp only [if_neg (not_le.mpr h2)]
      constructor
      · rw [hs0, min_eq_left hA, sub_zero]
      · rw [hs0, sub_zero, max_eq_right hA]

/-- Witness for C2 at a concrete input: a warrior with shield 30 hit for 40
absorbs 30 and loses 10 hp. -/
theorem take_damage_shield_formula_witness :
    (0:ℚ) ≤ 40 ∧ (0:ℚ) ≤ ({ mkWarrior "w" with shield := 30 } : Character).shield ∧
    (0:ℚ) ≤ ({ mkWarrior "w" with shield := 30 } : Character).hp ∧
    (({ mkWarrior "w" with shield := 30 } : Character).takeDamage 40).shield =
      ({ mkWarrior "w" with shield := 30 } : Character).shield -
        min ({ mkWarrior "w" with shield := 30 } : Character).shield 40 ∧
    (({ mkWarrior "w" with shield := 30 } : Character).takeDamage 40).hp =
      max 0 (({ mkWarrior "w" with shield := 30 } : Character).hp -
        max 0 (40 - ({ mkWarrior "w" with shield := 30 } : Character).shield)) :=
  ⟨by norm_num, by norm_num [mkWarrior, mkCharacter], by norm_num [mkWarrior, mkCharacter],
    (take_damage_shield_formula _ 40 (by norm_num)
      (by norm_num [mkWarrior, mkCharacter]) (by norm_num [mkWarrior, mkCharacter])).1,
    (take_damage_shield_formula _ 40 (by norm_num)
      (by norm_num [mkWarrior, mkCharacter]) (by norm_num [mkWarrior, mkCharacter])).2⟩

/-- Claim C3: with positive max hp, the boss's phase is the pure function
`phaseOfRatio` of the ratio `hp / max_hp`; the ratio regions are
`> 0.66 ↦ 1`, `(0.33, 0.66] ↦ 2`, `≤ 0.33 ↦ 3`. -/
theorem boss_phase_pure_of_ratio (b : Character) (h : 0 < b.maxHp) :
    bossPhase b = phaseOfRatio (b.hp / b.maxHp) ∧
    ∀ r : ℚ,
      (phaseOfRatio r = 1 ↔ 66 / 100 < r) ∧
      (phaseOfRatio r = 2 ↔ 33 / 100 < r ∧ r ≤ 66 / 100) ∧
      (phaseOfRatio r = 3 ↔ r ≤ 33 / 100) := by
  constructor
  · unfold bossPhase
    rw [if_pos h]
  · intro r
    unfold phaseOfRatio
    by_cases h1 : 66 / 100 < r
    · simp only [if_pos h1]
      refine ⟨?_, ?_, ?_⟩
      · exact ⟨fun _ => h1, fun _ => by trivial⟩
      · exact ⟨fun hx => absurd hx (by decide), fun hx => absurd h1 (not_lt.mpr hx.2)⟩
      · exact ⟨fun hx => absurd hx (by decide),
          fun hx => absurd h1 (not_lt.mpr (by linarith))⟩
    · simp only [if_neg h1]
      by_cases h2 : 33 / 100 < r
      · simp only [if_pos h2]
        refine ⟨?_, ?_, ?_⟩
        · exact ⟨fun hx => absurd hx (by decide), fun hx => absurd hx h1⟩
        · exact ⟨fun _ => ⟨h2, not_lt.mp h1⟩, fun _ => by trivial⟩
        · exact ⟨fun hx => absurd hx (by decide), fun hx => absurd h2 (not_lt.mpr hx)⟩
      · simp only [if_neg h2]
        refine ⟨?_, ?_, ?_⟩
        · exact ⟨fun hx => absurd hx (by decide), fun hx => absurd hx h1⟩
        · exact ⟨fun hx => absurd hx (by decide), fun hx => absurd hx.1 h2⟩
        · exact ⟨fun _ => not_lt.mp h2, fun _ => by trivial⟩

/-- Witness for C3: the freshly built boss has positive max hp, its phase is
the ratio function's value, and a full-hp ratio of 1 is phase 1. -/
theorem boss_phase_pure_of_ratio_witness :
    (0:ℚ) < (mkBoss "d").maxHp ∧
    bossPhase (mkBoss "d") = phaseOfRatio ((mkBoss "d").hp / (mkBoss "d").maxHp) ∧
    (phaseOfRatio 1 = 1 ↔ (66:ℚ) / 100 < 1) :=
  ⟨by norm_num [mkBoss, mkCharacter],
    (boss_phase_pure_of_ratio (mkBoss "d") (by norm_num [mkBoss, mkCharacter])).1,
    ((boss_phase_pure_of_ratio (mkBoss "d")
      (by norm_num [mkBoss, mkCharacter])).2 1).1⟩

/-- Claim C7: a non-numeric assignment to a bounded stat raises and leaves
the stored value unchanged; a numeric assignment stores the clamp of the
value into `[lo, hi]` (or `[lo, ∞)` when no upper bound is set). -/
theorem bounded_assignment_clamps (b : BoundedStat) (prev : ℚ) (value : PyValue) :
    (pyFloat value = none →
      b.assign value = .error () ∧ b.storedAfter prev value = prev) ∧
    (∀ q : ℚ, pyFloat value = some q →
      (b.hi = none →
        b.assign value = .ok (max b.lo q) ∧
        b.storedAfter prev value = max b.lo q ∧
        b.lo ≤ b.storedAfter prev value) ∧
      (∀ m : ℚ, b.hi = some m →
        b.assign value = .ok (max b.lo (min m q)) ∧
        b.storedAfter prev value = max b.lo (min m q) ∧
        b.lo ≤ b.storedAfter prev value ∧
        (b.lo ≤ m → b.storedAfter prev value ≤ m))) := by
  constructor
  · intro hnone
    unfold BoundedStat.storedAfter BoundedStat.assign
    rw [hnone]
    exact ⟨rfl, rfl⟩
  · intro q hq
    constructor
    · intro hnone
      unfold BoundedStat.storedAfter BoundedStat.assign
      rw [hq, hnone]
      exact ⟨rfl, rfl, le_max_left _ _⟩
    · intro m hm
      unfold BoundedStat.storedAfter BoundedStat.assign
      rw [hq, hm]
      refine ⟨rfl, rfl, le_max_left _ _, fun hlm => ?_⟩
      exact max_le hlm (min_le_left _ _)

/-- Witness for C7: assigning the non-numeric `other` keeps the prior value;
assigning 200 to the unbounded-above hp descriptor stores `max 0 200`. -/
theorem bounded_assignment_clamps_witness :
    pyFloat .other = none ∧
    (humanStat.assign .other = .error () ∧ humanStat.storedAfter 5 .other = 5) ∧
    pyFloat (.num 200) = some 200 ∧ humanStat.hi = none ∧
    (humanStat.assign (.num 200) = .ok (max humanStat.lo 200) ∧
      humanStat.storedAfter 5 (.num 200) = max humanStat.lo 200 ∧
      humanStat.lo ≤ humanStat.storedAfter 5 (.num 200)) :=
  ⟨rfl, (bounded_assignment_clamps humanStat 5 .other).1 rfl, rfl, rfl,
    ((bounded_assignment_clamps humanStat 5 (.num 200)).2 200 rfl).1 rfl⟩

/-- Claim C10: a bounded stat assignment raises exactly when the `float`
conversion fails; the numeric string "42" converts to 42, so it is clamped
and stored, not rejected. -/
theorem assignment_raises_iff_float_fails (b : BoundedStat) (prev : ℚ)
    (value : PyValue) :
    ((∃ e, b.assign value = .error e) ↔ pyFloat value = none) ∧
    pyFloat (.str "42") = some 42 ∧
    humanStat.storedAfter prev (.str "42") = 42 := by
  refine ⟨⟨?_, ?_⟩, ?_, ?_⟩
  · rintro ⟨e, he⟩
    unfold BoundedStat.assign at he
    cases hf : pyFloat value with
    | none => rfl
    | some q =>
      rw [hf] at he
      cases hhi : b.hi <;> rw [hhi] at he <;> exact absurd he (by simp)
  · intro hnone
    exact ⟨(), by unfold BoundedStat.assign; rw [hnone]⟩
  · rfl
  · have h42 : humanStat.assign (.str "42") = .ok 42 := rfl
    unfold BoundedStat.storedAfter
    rw [h42]

/-- Claim C4 fails on the code: the `hp` descriptor has no upper bound, so a
direct stat assignment stores a value above `max_hp`.  A fresh warrior has
`max_hp = 150`, yet assigning 200 stores hp 200. -/
theorem hp_assignment_exceeds_max_counterexample :
    ((mkWarrior "w").assignHp (.num 200)).hp = 200 ∧
    (mkWarrior "w").maxHp = 150 ∧
    ¬ ((mkWarrior "w").assignHp (.num 200)).hp ≤
      ((mkWarrior "w").assignHp (.num 200)).maxHp := by
  refine ⟨?_, rfl, ?_⟩ <;>
    norm_num [Character.assignHp, BoundedStat.storedAfter, BoundedStat.assign,
      pyFloat, humanStat, mkWarrior, mkCharacter]

/-- Claim C4 amended: direct hp/mp assignments clamp only below at 0 (the
descriptors carry no upper bound and `max_hp`/`max_mp` are untouched), while
the upper bounds `hp ≤ max_hp` and `mp ≤ max_mp` are enforced by `heal` and
`restore_mp`, hold at construction, and `take_damage` never raises hp. -/
theorem hp_mp_bounds_by_operation :
    (∀ (c : Character) (q : ℚ),
      (c.assignHp (.num q)).hp = max 0 q ∧ (c.assignHp (.num q)).maxHp = c.maxHp) ∧
    (∀ (c : Character) (q : ℚ),
      (c.assignMp (.num q)).mp = max 0 q ∧ (c.assignMp (.num q)).maxMp = c.maxMp) ∧
    (∀ (c : Character) (a : ℚ), 0 ≤ c.maxHp →
      (c.heal a).hp ≤ c.maxHp ∧ 0 ≤ (c.heal a).hp) ∧
    (∀ (c : Character) (a : ℚ), 0 ≤ c.maxMp →
      (c.restoreMp a).mp ≤ c.maxMp ∧ 0 ≤ (c.restoreMp a).mp) ∧
    (∀ (n : String) (l : Nat) (a b s g i : ℚ),
      (mkCharacter n l a b s g i).hp = max 0 (mkCharacter n l a b s g i).maxHp ∧
      (mkCharacter n l a b s g i).mp = max 0 (mkCharacter n l a b s g i).maxMp) ∧
    (∀ (c : Character) (a : ℚ), (c.takeDamage a).hp ≤ max 0 c.hp) := by
  refine ⟨?_, ?_, ?_, ?_, ?_, ?_⟩
  · intro c q
    constructor
    · simp [Character.assignHp, BoundedStat.storedAfter, BoundedStat.assign,
        pyFloat, humanStat]
    · rfl
  · intro c q
    constructor
    · simp [Character.assignMp, BoundedStat.storedAfter, BoundedStat.assign,
        pyFloat, humanStat]
    · rfl
  · intro c a hmax
    unfold Character.heal
    constructor
    · exact max_le hmax (min_le_left _ _)
    · exact le_max_left _ _
  · intro c a hmax
    unfold Character.restoreMp
    constructor
    · exact max_le hmax (min_le_left _ _)
    · exact le_max_left _ _
  · intro n l a b s g i
    exact ⟨rfl, rfl⟩
  · intro c a
    simp only [Character.takeDamage]
    by_cases h1 : 0 < c.shield <;> simp only [if_pos, if_neg, h1, if_true, if_false]
    · by_cases h2 : a - min c.shield a ≤ 0
      · simp only [if_pos h2]
        exact le_max_right _ _
      · simp only [if_neg h2]
        refine max_le (le_max_left _ _) (le_trans ?_ (le_max_right 0 c.hp))
        linarith [not_le.mp h2]
    · by_cases h2 : a ≤ 0
      · simp only [if_pos h2]
        exact le_max_right _ _
      · simp only [if_neg h2]
        refine max_le (le_max_left _ _) (le_trans ?_ (le_max_right 0 c.hp))
        linarith [not_le.mp h2]

/-- Witness for the amended C4: the hp cap under `heal` at a concrete
character with nonnegative max hp. -/
theorem hp_mp_bounds_by_operation_witness :
    (0:ℚ) ≤ (mkWarrior "w").maxHp ∧
    ((mkWarrior "w").heal 999).hp ≤ (mkWarrior "w").maxHp ∧
    (0:ℚ) ≤ ((mkWarrior "w").heal 999).hp :=
  ⟨by norm_num [mkWarrior, mkCharacter],
    (hp_mp_bounds_by_operation.2.2.1 (mkWarrior "w") 999
      (by norm_num [mkWarrior, mkCharacter])).1,
    (hp_mp_bounds_by_operation.2.2.1 (mkWarrior "w") 999
      (by norm_num [mkWarrior, mkCharacter])).2⟩

/-- Claim C5 fails on the code: `power_strike` also rolls for a crit and
multiplies by `crit_multiplier`, so a successful strike need not deal
exactly `strength * 2.0`.  A fresh warrior (strength 20) striking a fresh
boss (600 hp) on a crit roll leaves it at 540 hp, not the claimed 560. -/
theorem power_strike_crit_counterexample :
    (powerStrike (mkWarrior "w") (mkBoss "b") true).ok = true ∧
    (powerStrike (mkWarrior "w") (mkBoss "b") true).target.hp = 540 ∧
    ((mkBoss "b").takeDamage ((mkWarrior "w").strength * 2)).hp = 560 ∧
    (powerStrike (mkWarrior "w") (mkBoss "b") true).target.hp ≠
      ((mkBoss "b").takeDamage ((mkWarrior "w").strength * 2)).hp := by
  have h1 : (powerStrike (mkWarrior "w") (mkBoss "b") true).target.hp = 540 := by
    norm_num [powerStrike, mkWarrior, mkBoss, mkCharacter, Character.isSilenced,
      getCooldown, Character.spendMp, Character.takeDamage, setCooldown,
      max_def, min_def]
  have h2 : ((mkBoss "b").takeDamage ((mkWarrior "w").strength * 2)).hp = 560 := by
    norm_num [mkWarrior, mkBoss, mkCharacter, Character.takeDamage,
      max_def, min_def]
  exact ⟨by decide, h1, h2, by rw [h1, h2]; norm_num⟩

/-- Claim C5 amended: on a successful cast, `power_strike` deals
`strength * 2.0` times the crit multiplier when the crit roll fires (and
exactly `strength * 2.0` otherwise); `fireball` deals exactly
`intelligence * 3.0` plus a DOT of 25% of that over 2 rounds; `mass_heal`
heals each living ally by exactly `intelligence * 2.0`. -/
theorem skill_formulas_on_success (w wt m mt h : Character)
    (allies : List Character) (crit : Bool) :
    (w.isSilenced = false → getCooldown w.cooldowns "power_strike" ≤ 0 →
      8 ≤ w.mp →
      (powerStrike w wt crit).ok = true ∧
      (powerStrike w wt crit).target =
        wt.takeDamage (w.strength * 2 * (if crit then w.critMultiplier else 1))) ∧
    (m.isSilenced = false → getCooldown m.cooldowns "fireball" ≤ 0 →
      20 ≤ m.mp →
      (fireball m mt).ok = true ∧
      (fireball m mt).target =
        (mt.takeDamage (m.intelligence * 3)).applyEffect
          (.dot (m.intelligence * 3 * (25 / 100)) 2)) ∧
    (h.isSilenced = false → getCooldown h.cooldowns "mass_heal" ≤ 0 →
      25 ≤ h.mp →
      (massHeal h allies).ok = true ∧
      (massHeal h allies).allies =
        allies.map (fun a => if a.isAlive then a.heal (h.intelligence * 2) else a)) := by
  refine ⟨?_, ?_, ?_⟩
  · intro hs hcd hmp
    simp only [powerStrike, hs, Bool.false_eq_true, if_false,
      if_neg (not_lt.mpr hcd), Character.spendMp, if_pos hmp]
    cases crit <;> simp [mul_one]
  · intro hs hcd hmp
    simp only [fireball, hs, Bool.false_eq_true, if_false,
      if_neg (not_lt.mpr hcd), Character.spendMp, if_pos hmp]
    simp
  · intro hs hcd hmp
    simp only [massHeal, hs, Bool.false_eq_true, if_false,
      if_neg (not_lt.mpr hcd), Character.spendMp, if_pos hmp]
    simp

/-- Witness for the amended C5 at fresh characters: no crit power strike,
a fireball, and a mass heal over one wounded ally. -/
theorem skill_formulas_on_success_witness :
    ((mkWarrior "w").isSilenced = false ∧
      getCooldown (mkWarrior "w").cooldowns "power_strike" ≤ 0 ∧
      (8:ℚ) ≤ (mkWarrior "w").mp) ∧
    (powerStrike (mkWarrior "w") (mkBoss "b") false).ok = true ∧
    (powerStrike (mkWarrior "w") (mkBoss "b") false).target =
      (mkBoss "b").takeDamage ((mkWarrior "w").strength * 2 *
        (if false then (mkWarrior "w").critMultiplier else 1)) ∧
    (fireball (mkMage "m") (mkBoss "b")).ok = true ∧
    (fireball (mkMage "m") (mkBoss "b")).target =
      ((mkBoss "b").takeDamage ((mkMage "m").intelligence * 3)).applyEffect
        (.dot ((mkMage "m").intelligence * 3 * (25 / 100)) 2) ∧
    (massHeal (mkHealer "h") [mkWarrior "w"]).ok = true ∧
    (massHeal (mkHealer "h") [mkWarrior "w"]).allies =
      [mkWarrior "w"].map
        (fun a => if a.isAlive then a.heal ((mkHealer "h").intelligence * 2) else a) :=
  ⟨⟨by decide, by decide, by decide⟩,
    ((skill_formulas_on_success (mkWarrior "w") (mkBoss "b") (mkMage "m")
      (mkBoss "b") (mkHealer "h") [mkWarrior "w"] false).1
      (by decide) (by decide) (by decide)).1,
    ((skill_formulas_on_success (mkWarrior "w") (mkBoss "b") (mkMage "m")
      (mkBoss "b") (mkHealer "h") [mkWarrior "w"] false).1
      (by decide) (by decide) (by decide)).2,
    ((skill_formulas_on_success (mkWarrior "w") (mkBoss "b") (mkMage "m")
      (mkBoss "b") (mkHealer "h") [mkWarrior "w"] false).2.1
      (by decide) (by decide) (by decide)).1,
    ((skill_formulas_on_success (mkWarrior "w") (mkBoss "b") (mkMage "m")
      (mkBoss "b") (mkHealer "h") [mkWarrior "w"] false).2.1
      (by decide) (by decide) (by decide)).2,
    ((skill_formulas_on_success (mkWarrior "w") (mkBoss "b") (mkMage "m")
      (mkBoss "b") (mkHealer "h") [mkWarrior "w"] false).2.2
      (by decide) (by decide) (by decide)).1,
    ((skill_formulas_on_success (mkWarrior "w") (mkBoss "b") (mkMage "m")
      (mkBoss "b") (mkHealer "h") [mkWarrior "w"] false).2.2
      (by decide) (by decide) (by decide)).2⟩

/-- Claim C1: every signature skill call made while silenced, on cooldown,
or with mp below the cost returns failure and leaves the caster's mp and
cooldown map unchanged (the silenced check is first, so a silenced caster
fails whatever the cooldown and mp state). -/
theorem skill_guards_block_and_preserve (w wt m mt h : Character)
    (allies : List Character) (crit : Bool) :
    (w.isSilenced = true ∨ 0 < getCooldown w.cooldowns "power_strike" ∨
        w.mp < 8 →
      (powerStrike w wt crit).ok = false ∧
      (powerStrike w wt crit).caster.mp = w.mp ∧
      (powerStrike w wt crit).caster.cooldowns = w.cooldowns) ∧
    (m.isSilenced = true ∨ 0 < getCooldown m.cooldowns "fireball" ∨
        m.mp < 20 →
      (fireball m mt).ok = false ∧
      (fireball m mt).caster.mp = m.mp ∧
      (fireball m mt).caster.cooldowns = m.cooldowns) ∧
    (h.isSilenced = true ∨ 0 < getCooldown h.cooldowns "mass_heal" ∨
        h.mp < 25 →
      (massHeal h allies).ok = false ∧
      (massHeal h allies).caster.mp = h.mp ∧
      (massHeal h allies).caster.cooldowns = h.cooldowns) := by
  refine ⟨?_, ?_, ?_⟩
  · intro hyp
    by_cases hs : w.isSilenced = true
    · simp [powerStrike, hs]
    · by_cases hcd : 0 < getCooldown w.cooldowns "power_strike"
      · simp [powerStrike, hs, hcd]
      · have hmp : w.mp < 8 := by
          rcases hyp with hx | hx | hx
          · exact absurd hx hs
          · exact absurd hx hcd
          · exact hx
        simp [powerStrike, hs, hcd, Character.spendMp, not_le.mpr hmp]
  · intro hyp
    by_cases hs : m.isSilenced = true
    · simp [fireball, hs]
    · by_cases hcd : 0 < getCooldown m.cooldowns "fireball"
      · simp [fireball, hs, hcd]
      · have hmp : m.mp < 20 := by
          rcases hyp with hx | hx | hx
          · exact absurd hx hs
          · exact absurd hx hcd
          · exact hx
        simp [fireball, hs, hcd, Character.spendMp, not_le.mpr hmp]
  · intro hyp
    by_cases hs : h.isSilenced = true
    · simp [massHeal, hs]
    · by_cases hcd : 0 < getCooldown h.cooldowns "mass_heal"
      · simp [massHeal, hs, hcd]
      · have hmp : h.mp < 25 := by
          rcases hyp with hx | hx | hx
          · exact absurd hx hs
          · exact absurd hx hcd
          · exact hx
        simp [massHeal, hs, hcd, Character.spendMp, not_le.mpr hmp]

/-- Witness for C1: a silenced warrior's strike and a drained mage's
fireball both fail with mp and cooldowns untouched. -/
theorem skill_guards_block_and_preserve_witness :
    (({ mkWarrior "w" with effects := [.silence 1] } : Character).isSilenced = true ∨
      0 < getCooldown ({ mkWarrior "w" with effects := [.silence 1] } : Character).cooldowns
        "power_strike" ∨
      ({ mkWarrior "w" with effects := [.silence 1] } : Character).mp < 8) ∧
    (powerStrike { mkWarrior "w" with effects := [.silence 1] } (mkBoss "b") true).ok
      = false ∧
    (powerStrike { mkWarrior "w" with effects := [.silence 1] } (mkBoss "b") true).caster.mp
      = ({ mkWarrior "w" with effects := [.silence 1] } : Character).mp ∧
    (({ mkMage "m" with mp := 3 } : Character).isSilenced = true ∨
      0 < getCooldown ({ mkMage "m" with mp := 3 } : Character).cooldowns "fireball" ∨
      ({ mkMage "m" with mp := 3 } : Character).mp < 20) ∧
    (fireball { mkMage "m" with mp := 3 } (mkBoss "b")).ok = false ∧
    (fireball { mkMage "m" with mp := 3 } (mkBoss "b")).caster.cooldowns
      = ({ mkMage "m" with mp := 3 } : Character).cooldowns :=
  ⟨Or.inl (by decide),
    ((skill_guards_block_and_preserve { mkWarrior "w" with effects := [.silence 1] }
      (mkBoss "b") { mkMage "m" with mp := 3 } (mkBoss "b") (mkHealer "h") [] true).1
      (Or.inl (by decide))).1,
    ((skill_guards_block_and_preserve { mkWarrior "w" with effects := [.silence 1] }
      (mkBoss "b") { mkMage "m" with mp := 3 } (mkBoss "b") (mkHealer "h") [] true).1
      (Or.inl (by decide))).2.1,
    Or.inr (Or.inr (by decide)),
    ((skill_guards_block_and_preserve { mkWarrior "w" with effects := [.silence 1] }
      (mkBoss "b") { mkMage "m" with mp := 3 } (mkBoss "b") (mkHealer "h") [] true).2.1
      (Or.inr (Or.inr (by decide)))).1,
    ((skill_guards_block_and_preserve { mkWarrior "w" with effects := [.silence 1] }
      (mkBoss "b") { mkMage "m" with mp := 3 } (mkBoss "b") (mkHealer "h") [] true).2.1
      (Or.inr (Or.inr (by decide)))).2.2⟩

theorem onTurn_snd_eq (c : Character) (e : Effect) :
    (Effect.onTurn c e).2 = e.decrement := by
  cases e <;> rfl

theorem decrement_duration (e : Effect) :
    e.decrement.duration = e.duration - 1 := by
  cases e <;> rfl

theorem decrement_isSilence (e : Effect) :
    e.decrement.isSilence = e.isSilence := by
  cases e <;> rfl

/-- The second component of the `start_turn_effects` fold is the effect
list with every duration decremented, independent of the payloads. -/
theorem startTurn_fold_snd (es : List Effect) (c : Character) (acc : List Effect) :
    (es.foldl
      (fun (a : Character × List Effect) e =>
        let s := Effect.onTurn a.1 e
        (s.1, a.2 ++ [s.2])) (c, acc)).2 = acc ++ es.map Effect.decrement := by
  induction es generalizing c acc with
  | nil => simp
  | cons e tl ih =>
    simp only [List.foldl_cons, List.map_cons]
    rw [ih]
    simp [onTurn_snd_eq]

/-- The second component of the `remove_expired_effects` fold keeps exactly
the effects whose duration is still positive, in order. -/
theorem removeExpired_fold_snd (es : List Effect) (c : Character) (acc : List Effect) :
    (es.foldl
      (fun (a : Character × List Effect) e =>
        if e.duration ≤ 0 then (e.expireOn a.1, a.2)
        else (a.1, a.2 ++ [e])) (c, acc)).2
    = acc ++ es.filter (fun e => !decide (e.duration ≤ 0)) := by
  induction es generalizing c acc with
  | nil => simp
  | cons e tl ih =>
    simp only [List.foldl_cons, List.filter_cons]
    by_cases hx : e.duration ≤ 0
    · rw [if_pos hx, ih]
      simp [hx]
    · rw [if_neg hx, ih]
      simp [hx]

/-- The effect list after `start_turn_effects`: decrement all durations,
then drop the ones that reached `≤ 0`. -/
theorem startTurnEffects_effects (c : Character) :
    (c.startTurnEffects).effects
      = (c.effects.map Effect.decrement).filter
          (fun e => !decide (e.duration ≤ 0)) := by
  simp only [Character.startTurnEffects, Character.removeExpiredEffects]
  rw [startTurn_fold_snd, removeExpired_fold_snd]
  simp

/-- Claim C9: every silence on the target with duration ≤ 1 (and
`Boss.cast_silence` only ever attaches duration 1) is decremented and
removed by the target's start-of-turn effect processing, so after
`start_turn_effects` the target is not silenced. -/
theorem duration_one_silence_never_blocks (c : Character)
    (hdur : ∀ e ∈ c.effects, e.isSilence = true → e.duration ≤ 1) :
    (c.startTurnEffects).isSilenced = false ∧
    ∀ t : Character, (castSilence t).effects = t.effects ++ [.silence 1] := by
  constructor
  · unfold Character.isSilenced
    rw [startTurnEffects_effects]
    rw [List.any_eq_false]
    intro e he
    obtain ⟨hmem, hkeep⟩ := List.mem_filter.mp he
    obtain ⟨e₀, he₀, rfl⟩ := List.mem_map.mp hmem
    intro hsil
    have hs0 : e₀.isSilence = true := by rw [← decrement_isSilence]; exact hsil
    have hd : e₀.duration ≤ 1 := hdur e₀ he₀ hs0
    have hdle : e₀.decrement.duration ≤ 0 := by
      rw [decrement_duration]; omega
    rw [decide_eq_true hdle] at hkeep
    exact absurd hkeep (by simp)
  · intro t
    rfl

/-- Witness for C9: a warrior carrying a freshly cast duration-1 silence is
no longer silenced after its start-of-turn processing. -/
theorem duration_one_silence_never_blocks_witness :
    (∀ e ∈ ({ mkWarrior "w" with effects := [.silence 1] } : Character).effects,
      e.isSilence = true → e.duration ≤ 1) ∧
    (({ mkWarrior "w" with effects := [.silence 1] } :
        Character).startTurnEffects).isSilenced = false ∧
    (castSilence (mkMage "m")).effects = (mkMage "m").effects ++ [.silence 1] :=
  ⟨by decide,
    (duration_one_silence_never_blocks
      { mkWarrior "w" with effects := [.silence 1] } (by decide)).1,
    (duration_one_silence_never_blocks
      { mkWarrior "w" with effects := [.silence 1] } (by decide)).2 (mkMage "m")⟩

/-- Claim C6: with liveness fixed, a `TurnOrder` round over combatants
`cs` (no duplicate entries) — any shuffle of the living filter, stably
sorted by descending agility, drained with dead-skipping — yields each
living combatant exactly once (a duplicate-free permutation of the living
filter), in non-increasing agility order, and yields no dead combatant. -/
theorem turn_order_round (cs shuffled : List Character)
    (hnd : cs.Nodup)
    (hperm : shuffled.Perm (cs.filter Character.isAlive)) :
    (turnOrderYield (prepareRound shuffled)).Perm (cs.filter Character.isAlive) ∧
    (turnOrderYield (prepareRound shuffled)).Nodup ∧
    (∀ c : Character,
      c ∈ turnOrderYield (prepareRound shuffled) ↔ c ∈ cs ∧ c.isAlive = true) ∧
    (turnOrderYield (prepareRound shuffled)).Pairwise
      (fun a b => b.agility ≤ a.agility) ∧
    (∀ c ∈ turnOrderYield (prepareRound shuffled), c.isAlive = true) := by
  have hall : ∀ c ∈ prepareRound shuffled, c.isAlive = true := by
    intro c hc
    have h1 : c ∈ shuffled :=
      (List.mergeSort_perm shuffled agilityGe).mem_iff.mp hc
    have h2 : c ∈ cs.filter Character.isAlive := hperm.mem_iff.mp h1
    exact (List.mem_filter.mp h2).2
  have hyield : turnOrderYield (prepareRound shuffled) = prepareRound shuffled := by
    unfold turnOrderYield
    exact List.filter_eq_self.mpr hall
  have hperm2 : (prepareRound shuffled).Perm (cs.filter Character.isAlive) :=
    (List.mergeSort_perm shuffled agilityGe).trans hperm
  refine ⟨?_, ?_, ?_, ?_, ?_⟩
  · rw [hyield]; exact hperm2
  · rw [hyield]
    exact hperm2.nodup_iff.mpr (hnd.filter _)
  · intro c
    rw [hyield, hperm2.mem_iff, List.mem_filter]
  · rw [hyield]
    have htrans : ∀ a b c : Character,
        agilityGe a b → agilityGe b c → agilityGe a c := by
      intro a b c hab hbc
      simp only [agilityGe, decide_eq_true_eq] at *
      exact le_trans hbc hab
    have htotal : ∀ a b : Character, agilityGe a b || agilityGe b a := by
      intro a b
      simp only [agilityGe, Bool.or_eq_true, decide_eq_true_eq]
      exact le_total b.agility a.agility
    have hs := List.sorted_mergeSort htrans htotal shuffled
    exact hs.imp (fun {a b} h => by
      simpa [agilityGe, decide_eq_true_eq] using h)
  · rw [hyield]; exact hall

/-- Witness for C6: a concrete two-hero round with the identity shuffle. -/
theorem turn_order_round_witness :
    ([mkWarrior "w", mkMage "m"] : List Character).Nodup ∧
    (([mkWarrior "w", mkMage "m"] : List Character).filter Character.isAlive).Perm
      (([mkWarrior "w", mkMage "m"] : List Character).filter Character.isAlive) ∧
    (turnOrderYield (prepareRound
      (([mkWarrior "w", mkMage "m"] : List Character).filter Character.isAlive))).Perm
      (([mkWarrior "w", mkMage "m"] : List Character).filter Character.isAlive) ∧
    (turnOrderYield (prepareRound
      (([mkWarrior "w", mkMage "m"] : List Character).filter Character.isAlive))).Nodup :=
  ⟨by decide, List.Perm.refl _,
    (turn_order_round [mkWarrior "w", mkMage "m"] _ (by decide) (List.Perm.refl _)).1,
    (turn_order_round [mkWarrior "w", mkMage "m"] _ (by decide) (List.Perm.refl _)).2.1⟩

/-- Claim C8: in a hero's turn the boss performs exactly one immediate
retaliation smash iff the boss's hp strictly decreased during the hero's
action, the boss is still alive and some hero is alive (and the smash then
targets a living hero); the boss's own turn — including DOT damage landing
on the boss during its start-of-turn effect processing — never produces a
retaliation. -/
theorem retaliation_iff_hero_damages_boss :
    (∀ (st : BattleState) (roll : Bool) (sPick : Nat),
      (bossTurn st roll sPick).2 = false) ∧
    (∀ (st : BattleState) (i : Nat) (act : BattleState → BattleState)
        (pick : Nat) (hero : Character),
      st.party.get? i = some hero → hero.isAlive = true →
      hero.startTurnEffects.isAlive = true →
      ((heroTurn st i act pick).2 = true ↔
        ((act (afterEffectsState st i)).boss.hp < st.boss.hp ∧
          (act (afterEffectsState st i)).boss.isAlive = true ∧
          anyAlive (act (afterEffectsState st i)).party = true)) ∧
      ((heroTurn st i act pick).2 = true →
        (heroTurn st i act pick).1 =
          retaliate (act (afterEffectsState st i)) pick)) ∧
    (∀ (st : BattleState) (pick : Nat),
      anyAlive st.party = true →
      ∃ (j : Nat) (h : Character),
        (aliveIndices st.party).get? (pick % (aliveIndices st.party).length)
          = some j ∧
        st.party.get? j = some h ∧ h.isAlive = true ∧
        retaliate st pick = ⟨st.party.set j (smash st.boss h), st.boss⟩) := by
  refine ⟨?_, ?_, ?_⟩
  · intro st roll sPick
    simp only [bossTurn]
    split
    · rfl
    · split
      · rfl
      · rfl
  · intro st i act pick hero hget halive haft
    have haeq : afterEffectsState st i =
        (⟨st.party.set i hero.startTurnEffects, st.boss⟩ : BattleState) := by
      unfold afterEffectsState
      rw [hget]
    have hq : heroTurn st i act pick =
        (if (decide ((act ⟨st.party.set i hero.startTurnEffects, st.boss⟩).boss.hp
              < st.boss.hp)
            && (act ⟨st.party.set i hero.startTurnEffects, st.boss⟩).boss.isAlive
            && anyAlive (act ⟨st.party.set i hero.startTurnEffects, st.boss⟩).party)
          then (retaliate (act ⟨st.party.set i hero.startTurnEffects, st.boss⟩) pick,
            true)
          else (act ⟨st.party.set i hero.startTurnEffects, st.boss⟩, false)) := by
      simp only [heroTurn, hget, halive, haft, Bool.true_eq_false, if_false]
    rw [haeq, hq]
    by_cases hcond :
        (decide ((act ⟨st.party.set i hero.startTurnEffects, st.boss⟩).boss.hp
            < st.boss.hp)
          && (act ⟨st.party.set i hero.startTurnEffects, st.boss⟩).boss.isAlive
          && anyAlive (act ⟨st.party.set i hero.startTurnEffects, st.boss⟩).party)
          = true
    · rw [if_pos hcond]
      have h1 := hcond
      simp only [Bool.and_eq_true, decide_eq_true_eq] at h1
      refine ⟨⟨fun _ => ⟨h1.1.1, h1.1.2, h1.2⟩, fun _ => rfl⟩, fun _ => rfl⟩
    · rw [if_neg hcond]
      refine ⟨⟨fun hfalse => absurd hfalse (by simp), fun hp3 => ?_⟩,
        fun hfalse => absurd hfalse (by simp)⟩
      exfalso
      apply hcond
      simp only [Bool.and_eq_true, decide_eq_true_eq]
      exact ⟨⟨hp3.1, hp3.2.1⟩, hp3.2.2⟩
  · intro st pick hAny
    have hne : aliveIndices st.party ≠ [] := by
      obtain ⟨c, hc, hal⟩ := List.any_eq_true.mp hAny
      obtain ⟨j, hjlt, hj⟩ := List.mem_iff_getElem.mp hc
      intro hemp
      have hmem : j ∈ aliveIndices st.party := by
        unfold aliveIndices
        refine List.mem_filter.mpr ⟨List.mem_range.mpr hjlt, ?_⟩
        have hg : st.party.get? j = some c := by
          rw [List.get?_eq_getElem?, List.getElem?_eq_getElem hjlt, hj]
        rw [hg]
        exact hal
      rw [hemp] at hmem
      exact absurd hmem (List.not_mem_nil j)
    have hlen : 0 < (aliveIndices st.party).length := List.length_pos.mpr hne
    have hmod : pick % (aliveIndices st.party).length
        < (aliveIndices st.party).length := Nat.mod_lt _ hlen
    obtain ⟨j, hj⟩ : ∃ j,
        (aliveIndices st.party).get? (pick % (aliveIndices st.party).length)
          = some j := by
      refine ⟨(aliveIndices st.party)[pick % (aliveIndices st.party).length], ?_⟩
      rw [List.get?_eq_getElem?, List.getElem?_eq_getElem hmod]
    have hjmem : j ∈ aliveIndices st.party := by
      have := List.getElem?_eq_some_iff.mp (by rw [← List.get?_eq_getElem?]; exact hj)
      obtain ⟨hlt, heq⟩ := this
      rw [← heq]
      exact List.getElem_mem hlt
    have hpred : (match st.party.get? j with
        | some c => c.isAlive
        | none => false) = true := by
      have := List.mem_filter.mp (by unfold aliveIndices at hjmem; exact hjmem)
      exact this.2
    cases hg : st.party.get? j with
    | none =>
      rw [hg] at hpred
      exact absurd hpred (by simp)
    | some h =>
      rw [hg] at hpred
      refine ⟨j, h, hj, hg, hpred, ?_⟩
      simp only [retaliate]
      rw [hj]
      show (match st.party.get? j with
        | some h =>
          ({ party := st.party.set j (smash st.boss h), boss := st.boss } :
            BattleState)
        | none => st)
        = ({ party := st.party.set j (smash st.boss h), boss := st.boss } :
            BattleState)
      rw [hg]

/-- Witness for C8: a single-warrior party; an action that wounds the boss
triggers the retaliation flag, and a concrete boss turn does not. -/
theorem retaliation_iff_hero_damages_boss_witness :
    (bossTurn ⟨[mkWarrior "w"], mkBoss "b"⟩ true 0).2 = false ∧
    (⟨[mkWarrior "w"], mkBoss "b"⟩ : BattleState).party.get? 0 = some (mkWarrior "w") ∧
    (mkWarrior "w").isAlive = true ∧
    (mkWarrior "w").startTurnEffects.isAlive = true ∧
    ((heroTurn ⟨[mkWarrior "w"], mkBoss "b"⟩ 0
        (fun s => ⟨s.party, s.boss.takeDamage 10⟩) 0).2 = true ↔
      (((fun (s : BattleState) => (⟨s.party, s.boss.takeDamage 10⟩ : BattleState))
          (afterEffectsState ⟨[mkWarrior "w"], mkBoss "b"⟩ 0)).boss.hp
          < (⟨[mkWarrior "w"], mkBoss "b"⟩ : BattleState).boss.hp ∧
        ((fun (s : BattleState) => (⟨s.party, s.boss.takeDamage 10⟩ : BattleState))
          (afterEffectsState ⟨[mkWarrior "w"], mkBoss "b"⟩ 0)).boss.isAlive = true ∧
        anyAlive ((fun (s : BattleState) => (⟨s.party, s.boss.takeDamage 10⟩ : BattleState))
          (afterEffectsState ⟨[mkWarrior "w"], mkBoss "b"⟩ 0)).party = true)) :=
  ⟨(retaliation_iff_hero_damages_boss.1 ⟨[mkWarrior "w"], mkBoss "b"⟩ true 0),
    rfl, by decide, by decide,
    ((retaliation_iff_hero_damages_boss.2.1 ⟨[mkWarrior "w"], mkBoss "b"⟩ 0
      (fun s => ⟨s.party, s.boss.takeDamage 10⟩) 0 (mkWarrior "w")
      rfl (by decide) (by decide)).1)⟩

end MiniGame
